import Mathlib

/-!
Shallow embedding of the graph-construction core of `mofcgcnn/data.py`:
the batch collator `collate_pool`, the Gaussian radial-basis expander
`GaussianDistance`, and the per-crystal sample builder
`CIFData.__getitem__` (metal detection, primary-index construction,
neighbor padding/truncation).

Machine floats are modelled by exact arithmetic: distances and radii as
rationals, the Gaussian expansion over the reals.  The external geometry
library (pymatgen) is modelled abstractly: a `Crystal` carries, besides
its sites, the neighbor-query capability `nbrsWithin radius i`, returning
the `(distance, neighbor index)` pairs within `radius` of atom `i`
(`get_neighbors` / `get_all_neighbors` with `include_index=True`).
-/

/-- One atomic site: atomic number and whether the species is a metal
(`crystal[i].specie.number`, `crystal[i].specie.is_metal`). -/
structure Site where
  atomicNumber : ℕ
  isMetal : Bool
deriving DecidableEq

/-- A crystal structure together with its spatial-query capability.
`nbrsWithin r i` is the list of `(distance, neighbor_index)` pairs of the
atoms within radius `r` of atom `i`, as returned by the geometry
library (unsorted; the data pipeline sorts them itself). -/
structure Crystal where
  sites : List Site
  nbrsWithin : ℚ → ℕ → List (ℚ × ℕ)

/-- The site at index `i` (total lookup with a dummy default, used only
in range `i < sites.length`). -/
def Crystal.site (c : Crystal) (i : ℕ) : Site :=
  c.sites.getD i ⟨0, false⟩

/-- Construction-time configuration of `CIFData`, with the source's
defaults (`max_num_nbr=10, metal_max_num_nbr=16, metal_radius=8,
radius=6, dmin=0, step=0.2`). -/
structure Params where
  max_num_nbr : ℕ := 10
  metal_max_num_nbr : ℕ := 16
  metal_radius : ℚ := 8
  radius : ℚ := 6
  dmin : ℚ := 0
  step : ℚ := 1/5

/-- The `GaussianDistance` expander's state after `__init__`. -/
structure GaussianDistance where
  dmin : ℚ
  dmax : ℚ
  step : ℚ
  var : ℚ
deriving DecidableEq

/-- `np.arange(start, stop, step)` for a positive rational step:
`start, start+step, ...` with `ceil((stop-start)/step)` entries
(`Rat.ceil`: the smallest integer greater than or equal). -/
def arangeQ (start stop step : ℚ) : List ℚ :=
  (List.range ((stop - start) / step).ceil.toNat).map (fun j => start + (j : ℚ) * step)

/-- `GaussianDistance.__init__`: asserts `dmin < dmax` and
`dmax - dmin > step` (modelled as an `Option` that is `none` exactly when
an assert fires), stores `var = step` when no variance is given. -/
def GaussianDistance.init (dmin dmax step : ℚ) (var : Option ℚ) :
    Option GaussianDistance :=
  if dmin < dmax ∧ dmax - dmin > step then
    some { dmin := dmin, dmax := dmax, step := step, var := var.getD step }
  else
    none

/-- `self.filter = np.arange(dmin, dmax + step, step)`. -/
def GaussianDistance.filter (g : GaussianDistance) : List ℚ :=
  arangeQ g.dmin (g.dmax + g.step) g.step

/-- `GaussianDistance.expand` on one scalar distance: the vector
`exp(-(d - filter[k])^2 / var^2)` over all filter centers `k`. -/
noncomputable def GaussianDistance.expand (g : GaussianDistance) (d : ℝ) : List ℝ :=
  g.filter.map (fun c : ℚ => Real.exp (-((d - (c : ℝ)) ^ 2) / ((g.var : ℝ)) ^ 2))

/-- The `GaussianDistance(dmin=dmin, dmax=self.radius, step=step)` record
held by a constructed `CIFData` (`self.gdf`). -/
def gdfOf (p : Params) : GaussianDistance :=
  { dmin := p.dmin, dmax := p.radius, step := p.step, var := p.step }

/-- The ascending-by-distance order used by `sorted(nbrs, key=lambda x: x[1])`. -/
def distLE (a b : ℚ × ℕ) : Prop :=
  a.1 ≤ b.1

instance : DecidableRel distLE := fun a b => inferInstanceAs (Decidable (a.1 ≤ b.1))

instance : IsTotal (ℚ × ℕ) distLE := ⟨fun a b => le_total a.1 b.1⟩

instance : IsTrans (ℚ × ℕ) distLE := ⟨fun _ _ _ hab hbc => le_trans hab hbc⟩

/-- `sorted(nbrs, key=lambda x: x[1])`: sort a neighbor list ascending by
distance (a stable sort, as Python's `sorted`). -/
def sortByDist (l : List (ℚ × ℕ)) : List (ℚ × ℕ) :=
  l.insertionSort distLE

/-- The metal-atom index list: indices `i` with `crystal[i].specie.is_metal`,
in increasing order (the source's scan over `range(len(crystal))`). -/
def metal_index (c : Crystal) : List ℕ :=
  (List.range c.sites.length).filter (fun i => (c.site i).isMetal)

/-- Per-atom features: `[specie.number, len(get_neighbors(site, 1.6))]`. -/
def atom_fea (c : Crystal) : List (ℚ × ℚ) :=
  (List.range c.sites.length).map
    (fun i => (((c.site i).atomicNumber : ℚ), ((c.nbrsWithin (8/5) i).length : ℚ)))

/-- One metal atom's capped/padded neighbor-index row: indices of the
first `cap` sorted neighbors, padded with atom-index `0` when fewer than
`cap` neighbors exist. -/
def metal_nbr_row (cap : ℕ) (nbr : List (ℚ × ℕ)) : List ℕ :=
  if nbr.length < cap then
    nbr.map (fun x => x.2) ++ List.replicate (cap - nbr.length) 0
  else
    (nbr.take cap).map (fun x => x.2)

/-- `M_idx`: the flattening of every metal atom's (sorted, capped/padded)
neighbor-index row, metal atoms in index order. -/
def M_idx (p : Params) (c : Crystal) : List ℕ :=
  ((metal_index c).map
    (fun i => metal_nbr_row p.metal_max_num_nbr
      (sortByDist (c.nbrsWithin p.metal_radius i)))).flatten

/-- `M1_idx = list(set(M_idx) | set(metal_index))`: the deduplicated
union of the flattened metal-neighbor indices and the metal indices
(Python set order is unspecified; modelled as `dedup` of the
concatenation, which is extensionally the same set). -/
def M1_idx (p : Params) (c : Crystal) : List ℕ :=
  (M_idx p c ++ metal_index c).dedup

/-- One atom's main neighbor-index row: indices of the first
`max_num_nbr` sorted neighbors, padded with atom-index `0`. -/
def nbr_row_idx (maxNbr : ℕ) (nbr : List (ℚ × ℕ)) : List ℕ :=
  if nbr.length < maxNbr then
    nbr.map (fun x => x.2) ++ List.replicate (maxNbr - nbr.length) 0
  else
    (nbr.take maxNbr).map (fun x => x.2)

/-- One atom's main neighbor-distance row: distances of the first
`max_num_nbr` sorted neighbors, padded with `radius + 1.0`. -/
def nbr_row_dist (maxNbr : ℕ) (radius : ℚ) (nbr : List (ℚ × ℕ)) : List ℚ :=
  if nbr.length < maxNbr then
    nbr.map (fun x => x.1) ++ List.replicate (maxNbr - nbr.length) (radius + 1)
  else
    (nbr.take maxNbr).map (fun x => x.1)

/-- The sorted main neighbor list of atom `i`
(`sorted(get_all_neighbors(radius)[i], key=dist)`). -/
def sortedNbrs (p : Params) (c : Crystal) (i : ℕ) : List (ℚ × ℕ) :=
  sortByDist (c.nbrsWithin p.radius i)

/-- `nbr_fea_idx`: the `n_atoms × max_num_nbr` neighbor-index matrix. -/
def nbr_fea_idx (p : Params) (c : Crystal) : List (List ℕ) :=
  (List.range c.sites.length).map
    (fun i => nbr_row_idx p.max_num_nbr (sortedNbrs p c i))

/-- `nbr_fea` before basis expansion: the `n_atoms × max_num_nbr`
neighbor-distance matrix. -/
def nbr_fea_dist (p : Params) (c : Crystal) : List (List ℚ) :=
  (List.range c.sites.length).map
    (fun i => nbr_row_dist p.max_num_nbr p.radius (sortedNbrs p c i))

/-- One constructed data point, the tuple
`((atom_fea, nbr_fea, nbr_fea_idx, M1_index, M2_feature), target, cif_id)`. -/
structure Sample where
  atomFea : List (ℚ × ℚ)
  nbrFea : List (List (List ℝ))
  nbrFeaIdx : List (List ℕ)
  m1Index : List ℕ
  m2Feature : List ℚ
  target : List ℚ
  cifId : String

instance : Inhabited Sample :=
  ⟨⟨[], [], [], [], [], [], ""⟩⟩

/-- `CIFData.__getitem__` for one crystal: fails (the source prints a
message and exits the process) when the structure has no metal atom,
otherwise builds the sample. -/
noncomputable def CIFData.getItem (p : Params) (c : Crystal)
    (target m2 : List ℚ) (cifId : String) : Except String Sample :=
  if (metal_index c).length = 0 then
    .error ("There is no metal atoms in MOFs check ID " ++ cifId ++ "\n")
  else
    .ok { atomFea := atom_fea c
        , nbrFea := (nbr_fea_dist p c).map
            (fun row => row.map (fun d : ℚ => (gdfOf p).expand (d : ℝ)))
        , nbrFeaIdx := nbr_fea_idx p c
        , m1Index := M1_idx p c
        , m2Feature := m2
        , target := target
        , cifId := cifId }

/-- The output of `collate_pool`: the batched tensors, the grouping
structure `crystal_atom_idx`, the stacked auxiliary features and targets,
and the id list. -/
structure Batch where
  batchAtomFea : List (ℚ × ℚ)
  batchNbrFea : List (List (List ℝ))
  batchNbrFeaIdx : List (List ℕ)
  batchM1Index : List ℕ
  crystalAtomIdx : List (List ℕ)
  batchM2Fea : List (List ℚ)
  batchTarget : List (List ℚ)
  batchCifIds : List String

/-- The collation loop of `collate_pool`, carrying the two running
offsets `base_idx` (atoms seen) and `base_m1_idx` (primary-index rows
seen). -/
def collateGo : List Sample → ℕ → ℕ → Batch
  | [], _, _ =>
      { batchAtomFea := [], batchNbrFea := [], batchNbrFeaIdx := []
      , batchM1Index := [], crystalAtomIdx := [], batchM2Fea := []
      , batchTarget := [], batchCifIds := [] }
  | s :: rest, baseIdx, baseM1 =>
      let b := collateGo rest (baseIdx + s.atomFea.length) (baseM1 + s.m1Index.length)
      { batchAtomFea := s.atomFea ++ b.batchAtomFea
      , batchNbrFea := s.nbrFea ++ b.batchNbrFea
      , batchNbrFeaIdx := s.nbrFeaIdx.map (fun row => row.map (· + baseIdx))
          ++ b.batchNbrFeaIdx
      , batchM1Index := s.m1Index.map (· + baseIdx) ++ b.batchM1Index
      , crystalAtomIdx := (List.range s.m1Index.length).map (· + baseM1)
          :: b.crystalAtomIdx
      , batchM2Fea := s.m2Feature :: b.batchM2Fea
      , batchTarget := s.target :: b.batchTarget
      , batchCifIds := s.cifId :: b.batchCifIds }

/-- `collate_pool`: on an empty input list every `torch.cat` /
`torch.stack` call raises, modelled as `none`; otherwise the collation
loop runs from offsets `(0, 0)`. -/
def collate_pool : List Sample → Option Batch
  | [] => none
  | s :: rest => some (collateGo (s :: rest) 0 0)

/-- Well-formedness of a sample against its own atom axis: the neighbor
matrix has one row per atom, and every neighbor / primary index refers to
an atom of this sample. -/
def SampleWF (s : Sample) : Prop :=
  s.nbrFeaIdx.length = s.atomFea.length ∧
  (∀ row ∈ s.nbrFeaIdx, ∀ j ∈ row, j < s.atomFea.length) ∧
  (∀ j ∈ s.m1Index, j < s.atomFea.length)

instance (s : Sample) : Decidable (SampleWF s) := by
  unfold SampleWF; infer_instance

/-- Cumulative atom offset of sample `k`: `sum_{j<k} n_atoms_j`. -/
def atomOffset (ds : List Sample) (k : ℕ) : ℕ :=
  ((ds.take k).map (fun s => s.atomFea.length)).sum

/-- Cumulative primary-index offset of sample `k`: `sum_{j<k} p_j`. -/
def m1Offset (ds : List Sample) (k : ℕ) : ℕ :=
  ((ds.take k).map (fun s => s.m1Index.length)).sum

/-- Total number of flattened atom rows `N`. -/
def totAtoms (ds : List Sample) : ℕ :=
  (ds.map (fun s => s.atomFea.length)).sum

/-- Total length of the primary-index axis `sum_k p_k`. -/
def totM1 (ds : List Sample) : ℕ :=
  (ds.map (fun s => s.m1Index.length)).sum

/-- Closed form of the `batch_nbr_fea_idx` accumulator: each sample's
neighbor-index rows shifted by the running atom offset, concatenated. -/
def nbrBlocks : List Sample → ℕ → List (List ℕ)
  | [], _ => []
  | s :: rest, b =>
      s.nbrFeaIdx.map (fun row => row.map (· + b))
        ++ nbrBlocks rest (b + s.atomFea.length)

/-- Closed form of the `batch_m1_index` accumulator: each sample's
primary-index vector shifted by the running atom offset, concatenated. -/
def m1Flat : List Sample → ℕ → List ℕ
  | [], _ => []
  | s :: rest, b => s.m1Index.map (· + b) ++ m1Flat rest (b + s.atomFea.length)

/-- Closed form of the `crystal_atom_idx` accumulator: one
`arange(p_k) + base_m1_idx` group per sample. -/
def groupBlocks : List Sample → ℕ → List (List ℕ)
  | [], _ => []
  | s :: rest, m =>
      (List.range s.m1Index.length).map (· + m)
        :: groupBlocks rest (m + s.m1Index.length)

/-- The source's default configuration. -/
def pDef : Params := {}

/-- A configuration with `metal_max_num_nbr = 2`, other fields default. -/
def pC5 : Params := { metal_max_num_nbr := 2 }

/-- A two-atom crystal: a metal atom 0 and a non-metal atom 1, each the
other's single neighbor at distance 2. -/
def cW2 : Crystal :=
  { sites := [⟨30, true⟩, ⟨8, false⟩]
  , nbrsWithin := fun _ i => if i = 0 then [(2, 1)] else if i = 1 then [(2, 0)] else [] }

/-- A three-atom crystal with two metal atoms (0 and 1) that both see the
non-metal atom 2 as their single neighbor. -/
def cW3 : Crystal :=
  { sites := [⟨30, true⟩, ⟨29, true⟩, ⟨8, false⟩]
  , nbrsWithin := fun _ i => if i ≤ 1 then [(3, 2)] else [] }

/-- A one-atom crystal whose only atom is not a metal. -/
def cW4 : Crystal :=
  { sites := [⟨8, false⟩], nbrsWithin := fun _ _ => [] }

/-- A three-atom crystal: metal atom 0 with the two non-metal atoms 1 and
2 as neighbors (at distances 1 and 2). -/
def cC5 : Crystal :=
  { sites := [⟨30, true⟩, ⟨8, false⟩, ⟨8, false⟩]
  , nbrsWithin := fun _ i => if i = 0 then [(1, 1), (2, 2)] else [] }

/-- A one-atom crystal whose only atom is a metal with no neighbors. -/
def cW5 : Crystal :=
  { sites := [⟨30, true⟩], nbrsWithin := fun _ _ => [] }

/-- A two-atom crystal: non-metal atom 0 and metal atom 1, with no
neighbors at any radius. -/
def cC6 : Crystal :=
  { sites := [⟨8, false⟩, ⟨30, true⟩], nbrsWithin := fun _ _ => [] }

/-- A well-formed three-atom sample. -/
def sW1 : Sample :=
  { atomFea := [(6, 1), (8, 2), (30, 4)], nbrFea := []
  , nbrFeaIdx := [[0, 1], [2, 0], [1, 1]], m1Index := [0, 2]
  , m2Feature := [1], target := [0], cifId := "a" }

/-- A well-formed five-atom sample. -/
def sW2 : Sample :=
  { atomFea := [(1, 1), (6, 2), (8, 1), (30, 6), (8, 2)], nbrFea := []
  , nbrFeaIdx := [[4, 0], [1, 2], [3, 3], [0, 0], [2, 1]], m1Index := [1, 4, 0]
  , m2Feature := [1], target := [2], cifId := "b" }

/-- A well-formed two-atom sample whose primary index vector has length 1. -/
def sW3 : Sample :=
  { atomFea := [(6, 1), (8, 2)], nbrFea := []
  , nbrFeaIdx := [[1, 0], [0, 0]], m1Index := [0]
  , m2Feature := [], target := [0], cifId := "c" }

/-- A well-formed one-atom sample with a two-entry primary index vector. -/
def sW7 : Sample :=
  { atomFea := [(30, 2)], nbrFea := []
  , nbrFeaIdx := [[0, 0]], m1Index := [0, 0]
  , m2Feature := [], target := [1], cifId := "d" }

/-- The expander built by `GaussianDistance(0, 1, 0.5)`. -/
def gC9 : GaussianDistance :=
  { dmin := 0, dmax := 1, step := 1/2, var := 1/2 }

/-- The offset-correctness contract of `collate_pool` on input `ds` with
output batch `b`: per-sample portions shifted by the cumulative atom
offset, all indices valid against the flattened atom axis, and the
grouping blocks partitioning the primary-index axis in order. -/
def CollateOffsetSpec (ds : List Sample) (b : Batch) : Prop :=
  (∀ k, k < ds.length →
    ((b.batchNbrFeaIdx.drop (atomOffset ds k)).take (ds.getD k default).atomFea.length
        = (ds.getD k default).nbrFeaIdx.map (fun row => row.map (· + atomOffset ds k)) ∧
     (b.batchM1Index.drop (m1Offset ds k)).take (ds.getD k default).m1Index.length
        = (ds.getD k default).m1Index.map (· + atomOffset ds k) ∧
     b.crystalAtomIdx.getD k []
        = (List.range (ds.getD k default).m1Index.length).map (· + m1Offset ds k))) ∧
  (∀ row ∈ b.batchNbrFeaIdx, ∀ j ∈ row, j < totAtoms ds) ∧
  (∀ j ∈ b.batchM1Index, j < totAtoms ds) ∧
  b.crystalAtomIdx.length = ds.length ∧
  b.crystalAtomIdx.flatten = List.range (totM1 ds)

/-- The per-atom padding/truncation contract of the main neighbor lists
of atom `i`: exactly `max_num_nbr` slots in the index and feature rows;
lists shorter than `max_num_nbr` padded with atom-index `0` and distance
`radius + 1`; longer lists truncated to the first (closest, by the
ascending distance sort) `max_num_nbr` entries. -/
def NbrPadTruncSpec (p : Params) (c : Crystal) (i : ℕ) (s : Sample) : Prop :=
  (s.nbrFeaIdx.getD i []).length = p.max_num_nbr ∧
  (s.nbrFea.getD i []).length = p.max_num_nbr ∧
  ((nbr_fea_dist p c).getD i []).length = p.max_num_nbr ∧
  List.Sorted (fun a b : ℚ × ℕ => a.1 ≤ b.1) (sortedNbrs p c i) ∧
  (sortedNbrs p c i).Perm (c.nbrsWithin p.radius i) ∧
  ((sortedNbrs p c i).length < p.max_num_nbr →
    s.nbrFeaIdx.getD i []
        = (sortedNbrs p c i).map (fun x => x.2)
            ++ List.replicate (p.max_num_nbr - (sortedNbrs p c i).length) 0 ∧
    (nbr_fea_dist p c).getD i []
        = (sortedNbrs p c i).map (fun x => x.1)
            ++ List.replicate (p.max_num_nbr - (sortedNbrs p c i).length) (p.radius + 1)) ∧
  (p.max_num_nbr ≤ (sortedNbrs p c i).length →
    s.nbrFeaIdx.getD i [] = ((sortedNbrs p c i).take p.max_num_nbr).map (fun x => x.2) ∧
    (nbr_fea_dist p c).getD i []
        = ((sortedNbrs p c i).take p.max_num_nbr).map (fun x => x.1))

/-- The primary-index invariants of a sample built from crystal `c`:
all entries within the atom axis, every metal index present, no
duplicates. -/
def PrimaryIndexSpec (c : Crystal) (s : Sample) : Prop :=
  (∀ j ∈ s.m1Index, j < c.sites.length) ∧
  (∀ i ∈ metal_index c, i ∈ s.m1Index) ∧
  s.m1Index.Nodup


/-! ## Structural lemmas about the collation loop -/

theorem collateGo_batchNbrFeaIdx (ds : List Sample) (b m : ℕ) :
    (collateGo ds b m).batchNbrFeaIdx = nbrBlocks ds b := by
  induction ds generalizing b m with
  | nil => rfl
  | cons s rest ih => simp [collateGo, nbrBlocks, ih]

theorem collateGo_batchM1Index (ds : List Sample) (b m : ℕ) :
    (collateGo ds b m).batchM1Index = m1Flat ds b := by
  induction ds generalizing b m with
  | nil => rfl
  | cons s rest ih => simp [collateGo, m1Flat, ih]

theorem collateGo_crystalAtomIdx (ds : List Sample) (b m : ℕ) :
    (collateGo ds b m).crystalAtomIdx = groupBlocks ds m := by
  induction ds generalizing b m with
  | nil => rfl
  | cons s rest ih => simp [collateGo, groupBlocks, ih]

theorem atomOffset_zero (ds : List Sample) : atomOffset ds 0 = 0 := by
  simp [atomOffset]

theorem atomOffset_cons_succ (s : Sample) (rest : List Sample) (k : ℕ) :
    atomOffset (s :: rest) (k + 1) = s.atomFea.length + atomOffset rest k := by
  simp [atomOffset, List.take_succ_cons]

theorem m1Offset_zero (ds : List Sample) : m1Offset ds 0 = 0 := by
  simp [m1Offset]

theorem m1Offset_cons_succ (s : Sample) (rest : List Sample) (k : ℕ) :
    m1Offset (s :: rest) (k + 1) = s.m1Index.length + m1Offset rest k := by
  simp [m1Offset, List.take_succ_cons]

theorem drop_append_length {α : Type} (l₁ l₂ : List α) (n i : ℕ) (h : l₁.length = n) :
    (l₁ ++ l₂).drop (n + i) = l₂.drop i := by
  subst h
  rw [List.drop_append]

theorem nbrBlocks_portion (ds : List Sample) (b k : ℕ) (hk : k < ds.length)
    (hrows : ∀ s ∈ ds, s.nbrFeaIdx.length = s.atomFea.length) :
    ((nbrBlocks ds b).drop (atomOffset ds k)).take (ds.getD k default).atomFea.length
      = (ds.getD k default).nbrFeaIdx.map
          (fun row => row.map (· + (b + atomOffset ds k))) := by
  induction ds generalizing b k with
  | nil => simp at hk
  | cons s rest ih =>
    have hs : s.nbrFeaIdx.length = s.atomFea.length := hrows s (by simp)
    cases k with
    | zero =>
      rw [atomOffset_zero, List.drop_zero, List.getD_cons_zero, nbrBlocks,
        List.take_left' (by simp [hs])]
      simp
    | succ k =>
      rw [atomOffset_cons_succ, List.getD_cons_succ, nbrBlocks,
        drop_append_length _ _ _ _ (by simp [hs]),
        ih (b + s.atomFea.length) k (by simpa using hk)
          (fun t ht => hrows t (by simp [ht]))]
      simp [Nat.add_assoc]

theorem m1Flat_portion (ds : List Sample) (b k : ℕ) (hk : k < ds.length) :
    ((m1Flat ds b).drop (m1Offset ds k)).take (ds.getD k default).m1Index.length
      = (ds.getD k default).m1Index.map (· + (b + atomOffset ds k)) := by
  induction ds generalizing b k with
  | nil => simp at hk
  | cons s rest ih =>
    cases k with
    | zero =>
      rw [m1Offset_zero, atomOffset_zero, List.drop_zero, List.getD_cons_zero, m1Flat,
        List.take_left' (by simp)]
      simp
    | succ k =>
      rw [m1Offset_cons_succ, atomOffset_cons_succ, List.getD_cons_succ, m1Flat,
        drop_append_length _ _ _ _ (by simp),
        ih (b + s.atomFea.length) k (by simpa using hk)]
      simp [Nat.add_assoc]

theorem totAtoms_cons (s : Sample) (rest : List Sample) :
    totAtoms (s :: rest) = s.atomFea.length + totAtoms rest := by
  simp [totAtoms]

theorem totM1_cons (s : Sample) (rest : List Sample) :
    totM1 (s :: rest) = s.m1Index.length + totM1 rest := by
  simp [totM1]

theorem nbrBlocks_valid (ds : List Sample) (b : ℕ)
    (hwf : ∀ s ∈ ds, ∀ row ∈ s.nbrFeaIdx, ∀ j ∈ row, j < s.atomFea.length) :
    ∀ row ∈ nbrBlocks ds b, ∀ j ∈ row, j < b + totAtoms ds := by
  induction ds generalizing b with
  | nil => intro row hrow; simp [nbrBlocks] at hrow
  | cons s rest ih =>
    intro row hrow j hj
    rw [nbrBlocks] at hrow
    rcases List.mem_append.mp hrow with hrow | hrow
    · obtain ⟨r0, hr0, rfl⟩ := List.mem_map.mp hrow
      obtain ⟨x, hx, rfl⟩ := List.mem_map.mp hj
      have hlt := hwf s (by simp) r0 hr0 x hx
      have hta := totAtoms_cons s rest
      omega
    · have hlt := ih (b + s.atomFea.length)
        (fun t ht => hwf t (by simp [ht])) row hrow j hj
      have hta := totAtoms_cons s rest
      omega

theorem m1Flat_valid (ds : List Sample) (b : ℕ)
    (hwf : ∀ s ∈ ds, ∀ j ∈ s.m1Index, j < s.atomFea.length) :
    ∀ j ∈ m1Flat ds b, j < b + totAtoms ds := by
  induction ds generalizing b with
  | nil => intro j hj; simp [m1Flat] at hj
  | cons s rest ih =>
    intro j hj
    rw [m1Flat] at hj
    rcases List.mem_append.mp hj with hj | hj
    · obtain ⟨x, hx, rfl⟩ := List.mem_map.mp hj
      have hlt := hwf s (by simp) x hx
      have hta := totAtoms_cons s rest
      omega
    · have hlt := ih (b + s.atomFea.length)
        (fun t ht => hwf t (by simp [ht])) j hj
      have hta := totAtoms_cons s rest
      omega

theorem groupBlocks_length (ds : List Sample) (m : ℕ) :
    (groupBlocks ds m).length = ds.length := by
  induction ds generalizing m with
  | nil => rfl
  | cons s rest ih => simp [groupBlocks, ih]

theorem groupBlocks_getD (ds : List Sample) (m k : ℕ) (hk : k < ds.length) :
    (groupBlocks ds m).getD k []
      = (List.range (ds.getD k default).m1Index.length).map (· + (m + m1Offset ds k)) := by
  induction ds generalizing m k with
  | nil => simp at hk
  | cons s rest ih =>
    cases k with
    | zero =>
      rw [groupBlocks, List.getD_cons_zero, List.getD_cons_zero, m1Offset_zero]
      simp
    | succ k =>
      rw [groupBlocks, List.getD_cons_succ, List.getD_cons_succ, m1Offset_cons_succ,
        ih (m + s.m1Index.length) k (by simpa using hk)]
      simp [Nat.add_assoc, Nat.add_comm, Nat.add_left_comm]

theorem groupBlocks_flatten (ds : List Sample) (m : ℕ) :
    (groupBlocks ds m).flatten = (List.range (totM1 ds)).map (· + m) := by
  induction ds generalizing m with
  | nil => simp [groupBlocks, totM1]
  | cons s rest ih =>
    rw [groupBlocks, List.flatten_cons, ih, totM1_cons, List.range_add,
      List.map_append, List.map_map]
    congr 1
    exact List.map_congr_left (fun a _ => by simp [Function.comp]; omega)

/-! ## Claims about the batch collator -/

/-- Claim C1: for every non-empty list of well-formed samples,
`collate_pool` produces a batch in which every neighbor index and primary
index of the `k`-th sample's portion equals its per-sample value plus the
cumulative atom offset `sum_{j<k} n_atoms_j` (hence is valid against the
flattened atom axis of length `N`), and the `K` grouping ranges are
contiguous, non-overlapping, in order, and exactly partition the
primary-index axis of length `sum_k p_k`. -/
theorem c1_collate_offsets (ds : List Sample) (hne : ds ≠ [])
    (hwf : ∀ s ∈ ds, SampleWF s) :
    ∃ b, collate_pool ds = some b ∧ CollateOffsetSpec ds b := by
  obtain ⟨s, rest, rfl⟩ : ∃ s rest, ds = s :: rest := by
    cases ds with
    | nil => exact absurd rfl hne
    | cons s rest => exact ⟨s, rest, rfl⟩
  refine ⟨collateGo (s :: rest) 0 0, rfl, ?_, ?_, ?_, ?_, ?_⟩
  · intro k hk
    refine ⟨?_, ?_, ?_⟩
    · have h := nbrBlocks_portion (s :: rest) 0 k hk (fun t ht => (hwf t ht).1)
      rw [collateGo_batchNbrFeaIdx]
      simpa using h
    · have h := m1Flat_portion (s :: rest) 0 k hk
      rw [collateGo_batchM1Index]
      simpa using h
    · have h := groupBlocks_getD (s :: rest) 0 k hk
      rw [collateGo_crystalAtomIdx]
      simpa using h
  · intro row hrow j hj
    rw [collateGo_batchNbrFeaIdx] at hrow
    have h := nbrBlocks_valid (s :: rest) 0 (fun t ht => (hwf t ht).2.1) row hrow j hj
    simpa using h
  · intro j hj
    rw [collateGo_batchM1Index] at hj
    have h := m1Flat_valid (s :: rest) 0 (fun t ht => (hwf t ht).2.2) j hj
    simpa using h
  · rw [collateGo_crystalAtomIdx, groupBlocks_length]
  · rw [collateGo_crystalAtomIdx, groupBlocks_flatten]
    simp

/-- Witness for C1: the two concrete well-formed samples with 3 and 5
atoms satisfy the hypotheses, and the offset contract follows. -/
theorem c1_witness :
    ([sW1, sW2] : List Sample) ≠ [] ∧
    (∀ s ∈ ([sW1, sW2] : List Sample), SampleWF s) ∧
    ∃ b, collate_pool [sW1, sW2] = some b ∧ CollateOffsetSpec [sW1, sW2] b :=
  ⟨by simp, by decide, c1_collate_offsets [sW1, sW2] (by simp) (by decide)⟩

/-- Counterexample to claim C7 as stated: for the single well-formed
sample `sW3` with 2 atom rows and a primary index vector of length 1,
the grouping structure's lengths sum to 1, not to the flattened atom
count `N = 2`. -/
theorem c7_counterexample :
    SampleWF sW3 ∧
    ∃ b, collate_pool [sW3] = some b ∧
      ((b.crystalAtomIdx.map List.length).sum = 1 ∧ totAtoms [sW3] = 2 ∧
        (b.crystalAtomIdx.map List.length).sum ≠ totAtoms [sW3]) := by
  refine ⟨by decide, collateGo [sW3] 0 0, rfl, by decide, by decide, by decide⟩

/-- Claim C7 (amended): the grouping structure consists of `K` ordered
contiguous groups over the primary-index axis — not the atom axis — whose
lengths sum to `sum_k p_k`, the total primary-index count; its `j`-th
group maps the `j`-th block of primary-index rows back to sample `j`. -/
theorem c7_grouping_primary_axis (ds : List Sample) (hne : ds ≠ []) :
    ∃ b, collate_pool ds = some b ∧
      b.crystalAtomIdx.length = ds.length ∧
      (b.crystalAtomIdx.map List.length).sum = totM1 ds ∧
      b.crystalAtomIdx.flatten = List.range (totM1 ds) := by
  obtain ⟨s, rest, rfl⟩ : ∃ s rest, ds = s :: rest := by
    cases ds with
    | nil => exact absurd rfl hne
    | cons s rest => exact ⟨s, rest, rfl⟩
  have hflat : (collateGo (s :: rest) 0 0).crystalAtomIdx.flatten
      = List.range (totM1 (s :: rest)) := by
    rw [collateGo_crystalAtomIdx, groupBlocks_flatten]
    simp
  refine ⟨collateGo (s :: rest) 0 0, rfl, ?_, ?_, hflat⟩
  · rw [collateGo_crystalAtomIdx, groupBlocks_length]
  · have h := congrArg List.length hflat
    rw [List.length_flatten] at h
    simpa using h

/-- Witness for the amended C7 at the one-element list `[sW7]`. -/
theorem c7_witness :
    ([sW7] : List Sample) ≠ [] ∧
    ∃ b, collate_pool [sW7] = some b ∧
      b.crystalAtomIdx.length = ([sW7] : List Sample).length ∧
      (b.crystalAtomIdx.map List.length).sum = totM1 [sW7] ∧
      b.crystalAtomIdx.flatten = List.range (totM1 [sW7]) :=
  ⟨by simp, c7_grouping_primary_axis [sW7] (by simp)⟩

/-- Claim C10: `collate_pool` applied to an empty list of samples fails
(the concatenation of zero tensors raises) rather than returning an
empty batch. -/
theorem c10_empty_collate_fails : collate_pool [] = none := rfl

/-! ## Structural lemmas about the sample builder -/

theorem getD_map_range {α : Type} (f : ℕ → α) (n i : ℕ) (hi : i < n) (d : α) :
    ((List.range n).map f).getD i d = f i := by
  rw [List.getD_eq_getElem _ _ (by simpa using hi), List.getElem_map, List.getElem_range]

theorem getItem_ok (p : Params) (c : Crystal) (target m2 : List ℚ) (cifId : String)
    (h : metal_index c ≠ []) :
    CIFData.getItem p c target m2 cifId
      = .ok { atomFea := atom_fea c
            , nbrFea := (nbr_fea_dist p c).map
                (fun row => row.map (fun d : ℚ => (gdfOf p).expand (d : ℝ)))
            , nbrFeaIdx := nbr_fea_idx p c
            , m1Index := M1_idx p c
            , m2Feature := m2
            , target := target
            , cifId := cifId } := by
  rw [CIFData.getItem, if_neg]
  simpa using h

theorem sortByDist_sorted (l : List (ℚ × ℕ)) :
    List.Sorted (fun a b : ℚ × ℕ => a.1 ≤ b.1) (sortByDist l) :=
  List.sorted_insertionSort distLE l

theorem sortByDist_perm (l : List (ℚ × ℕ)) : (sortByDist l).Perm l :=
  List.perm_insertionSort distLE l

theorem mem_sortByDist {l : List (ℚ × ℕ)} {e : ℚ × ℕ} : e ∈ sortByDist l ↔ e ∈ l :=
  List.mem_insertionSort distLE

theorem nbr_row_idx_length (maxNbr : ℕ) (nbr : List (ℚ × ℕ)) :
    (nbr_row_idx maxNbr nbr).length = maxNbr := by
  unfold nbr_row_idx
  split <;> simp <;> omega

theorem nbr_row_dist_length (maxNbr : ℕ) (radius : ℚ) (nbr : List (ℚ × ℕ)) :
    (nbr_row_dist maxNbr radius nbr).length = maxNbr := by
  unfold nbr_row_dist
  split <;> simp <;> omega

theorem metal_nbr_row_length (cap : ℕ) (nbr : List (ℚ × ℕ)) :
    (metal_nbr_row cap nbr).length = cap := by
  unfold metal_nbr_row
  split <;> simp <;> omega

theorem mem_metal_nbr_row {cap : ℕ} {nbr : List (ℚ × ℕ)} {j : ℕ}
    (hj : j ∈ metal_nbr_row cap nbr) : j = 0 ∨ ∃ e ∈ nbr, e.2 = j := by
  unfold metal_nbr_row at hj
  split at hj
  · rcases List.mem_append.mp hj with hj | hj
    · obtain ⟨e, he, rfl⟩ := List.mem_map.mp hj
      exact Or.inr ⟨e, he, rfl⟩
    · exact Or.inl (List.mem_replicate.mp hj).2
  · obtain ⟨e, he, rfl⟩ := List.mem_map.mp hj
    exact Or.inr ⟨e, List.take_subset _ _ he, rfl⟩

/-! ## Claims about the sample builder -/

/-- Claim C2: for every constructed sample and every atom `i`, the main
neighbor index row and the neighbor feature row have exactly
`max_num_nbr` slots; with fewer real neighbors within the radius the
missing indices are `0` and the missing distances are exactly
`radius + 1.0` before basis expansion; with at least `max_num_nbr`
neighbors the sorted (closest-first) list is truncated to the first
`max_num_nbr` entries. -/
theorem c2_neighbor_slots (p : Params) (c : Crystal) (target m2 : List ℚ)
    (cifId : String) (hmetal : metal_index c ≠ []) (i : ℕ) (hi : i < c.sites.length) :
    ∃ s, CIFData.getItem p c target m2 cifId = .ok s ∧ NbrPadTruncSpec p c i s := by
  refine ⟨_, getItem_ok p c target m2 cifId hmetal, ?_⟩
  have hidx : (nbr_fea_idx p c).getD i []
      = nbr_row_idx p.max_num_nbr (sortedNbrs p c i) := getD_map_range _ _ _ hi _
  have hdist : (nbr_fea_dist p c).getD i []
      = nbr_row_dist p.max_num_nbr p.radius (sortedNbrs p c i) := getD_map_range _ _ _ hi _
  have hfea : ((nbr_fea_dist p c).map
        (fun row => row.map (fun d : ℚ => (gdfOf p).expand (d : ℝ)))).getD i []
      = ((nbr_fea_dist p c).getD i []).map (fun d : ℚ => (gdfOf p).expand (d : ℝ)) := by
    have hlen : i < (nbr_fea_dist p c).length := by
      simpa [nbr_fea_dist] using hi
    rw [List.getD_eq_getElem _ _ (by simpa using hlen), List.getElem_map,
      List.getD_eq_getElem _ _ hlen]
  refine ⟨?_, ?_, ?_, sortByDist_sorted _, sortByDist_perm _, ?_, ?_⟩
  · show ((nbr_fea_idx p c).getD i []).length = _
    rw [hidx, nbr_row_idx_length]
  · show (((nbr_fea_dist p c).map
        (fun row => row.map (fun d : ℚ => (gdfOf p).expand (d : ℝ)))).getD i []).length = _
    rw [hfea, List.length_map, hdist, nbr_row_dist_length]
  · rw [hdist, nbr_row_dist_length]
  · intro hlt
    constructor
    · show (nbr_fea_idx p c).getD i [] = _
      rw [hidx, nbr_row_idx, if_pos hlt]
    · rw [hdist, nbr_row_dist, if_pos hlt]
  · intro hge
    constructor
    · show (nbr_fea_idx p c).getD i [] = _
      rw [hidx, nbr_row_idx, if_neg (Nat.not_lt.mpr hge)]
    · rw [hdist, nbr_row_dist, if_neg (Nat.not_lt.mpr hge)]

/-- Witness for C2: the two-atom crystal `cW2` (metal atom 0 with a
single in-radius neighbor, fewer than the default `max_num_nbr = 10`)
at atom `i = 0`. -/
theorem c2_witness :
    metal_index cW2 ≠ [] ∧ 0 < cW2.sites.length ∧
    ∃ s, CIFData.getItem pDef cW2 [0] [1] "w2" = .ok s ∧ NbrPadTruncSpec pDef cW2 0 s :=
  ⟨by decide, by decide, c2_neighbor_slots pDef cW2 [0] [1] "w2" (by decide) 0 (by decide)⟩

/-- Claim C3: for every structure with at least one metal atom (and
in-range neighbor indices from the geometry library), the primary index
vector is a subset of `[0, n_atoms)`, contains every metal atom's index,
and has no duplicates. -/
theorem c3_primary_index_invariants (p : Params) (c : Crystal) (target m2 : List ℚ)
    (cifId : String) (hmetal : metal_index c ≠ [])
    (hwf : ∀ i ∈ metal_index c, ∀ e ∈ c.nbrsWithin p.metal_radius i,
      e.2 < c.sites.length) :
    ∃ s, CIFData.getItem p c target m2 cifId = .ok s ∧ PrimaryIndexSpec c s := by
  refine ⟨_, getItem_ok p c target m2 cifId hmetal, ?_, ?_, ?_⟩
  · show ∀ j ∈ M1_idx p c, j < c.sites.length
    intro j hj
    rw [M1_idx, List.mem_dedup] at hj
    have hn : 0 < c.sites.length := by
      obtain ⟨i, hi⟩ := List.exists_mem_of_ne_nil _ hmetal
      have h1 := (List.mem_filter.mp hi).1
      have h2 := List.mem_range.mp h1
      omega
    rcases List.mem_append.mp hj with hj | hj
    · rw [M_idx] at hj
      obtain ⟨row, hrow, hjrow⟩ := List.mem_flatten.mp hj
      obtain ⟨i, hi, rfl⟩ := List.mem_map.mp hrow
      rcases mem_metal_nbr_row hjrow with rfl | ⟨e, he, rfl⟩
      · exact hn
      · exact hwf i hi e (mem_sortByDist.mp he)
    · have h1 := (List.mem_filter.mp hj).1
      exact List.mem_range.mp h1
  · show ∀ i ∈ metal_index c, i ∈ M1_idx p c
    intro i hi
    rw [M1_idx, List.mem_dedup]
    exact List.mem_append_right _ hi
  · exact List.nodup_dedup _

/-- Witness for C3: the crystal `cW3` with two metal atoms whose
extended-radius neighbor indices are in range. -/
theorem c3_witness :
    metal_index cW3 ≠ [] ∧
    (∀ i ∈ metal_index cW3, ∀ e ∈ cW3.nbrsWithin pDef.metal_radius i,
      e.2 < cW3.sites.length) ∧
    ∃ s, CIFData.getItem pDef cW3 [0] [] "w3" = .ok s ∧ PrimaryIndexSpec cW3 s :=
  ⟨by decide, by decide,
    c3_primary_index_invariants pDef cW3 [0] [] "w3" (by decide) (by decide)⟩

/-- Claim C4: for every structure with zero metal atoms, the sample
builder raises the fatal condition (modelled as the `error` branch with
the source's message): no sample is produced for that identifier. -/
theorem c4_no_metal_fatal (p : Params) (c : Crystal) (target m2 : List ℚ)
    (cifId : String) (h : metal_index c = []) :
    CIFData.getItem p c target m2 cifId
      = .error ("There is no metal atoms in MOFs check ID " ++ cifId ++ "\n") ∧
    ∀ s, CIFData.getItem p c target m2 cifId ≠ .ok s := by
  have he : CIFData.getItem p c target m2 cifId
      = .error ("There is no metal atoms in MOFs check ID " ++ cifId ++ "\n") := by
    rw [CIFData.getItem, if_pos (by simp [h])]
  refine ⟨he, fun s hs => ?_⟩
  rw [he] at hs
  exact Except.noConfusion hs

/-- Witness for C4: the metal-free crystal `cW4`. -/
theorem c4_witness :
    metal_index cW4 = [] ∧
    (CIFData.getItem pDef cW4 [0] [] "w4"
        = .error ("There is no metal atoms in MOFs check ID " ++ "w4" ++ "\n") ∧
      ∀ s, CIFData.getItem pDef cW4 [0] [] "w4" ≠ .ok s) :=
  ⟨by decide, c4_no_metal_fatal pDef cW4 [0] [] "w4" (by decide)⟩

theorem M_idx_length (p : Params) (c : Crystal) :
    (M_idx p c).length = p.metal_max_num_nbr * (metal_index c).length := by
  rw [M_idx, List.length_flatten, List.map_map]
  have h : List.map (List.length ∘ fun i => metal_nbr_row p.metal_max_num_nbr
        (sortByDist (c.nbrsWithin p.metal_radius i))) (metal_index c)
      = List.map (fun _ => p.metal_max_num_nbr) (metal_index c) :=
    List.map_congr_left (fun i _ => metal_nbr_row_length _ _)
  rw [h, List.map_const', List.sum_replicate, smul_eq_mul, mul_comm]

/-- Counterexample to claim C5 as stated: for the crystal `cC5` (one
metal atom with two distinct in-range neighbors) and
`metal_max_num_nbr = 2`, the primary index vector has length 3, which
exceeds `metal_max_num_nbr × n_metal = 2`: the union with the metal's own
index escapes the claimed bound. -/
theorem c5_counterexample :
    ∃ s, CIFData.getItem pC5 cC5 [0] [] "c5" = .ok s ∧
      ¬ s.m1Index.length ≤ pC5.metal_max_num_nbr * (metal_index cC5).length := by
  refine ⟨_, getItem_ok pC5 cC5 [0] [] "c5" (by decide), ?_⟩
  show ¬ (M1_idx pC5 cC5).length ≤ _
  decide

/-- Claim C5 (amended): the primary index vector's length is at most
`(metal_max_num_nbr + 1) × n_metal`: the flattened capped neighbor rows
contribute at most `metal_max_num_nbr` entries per metal atom, and the
union with the metal indices at most one more per metal atom. -/
theorem c5_primary_index_bound (p : Params) (c : Crystal) (target m2 : List ℚ)
    (cifId : String) (hmetal : metal_index c ≠ []) :
    ∃ s, CIFData.getItem p c target m2 cifId = .ok s ∧
      s.m1Index.length ≤ (p.metal_max_num_nbr + 1) * (metal_index c).length := by
  refine ⟨_, getItem_ok p c target m2 cifId hmetal, ?_⟩
  show (M1_idx p c).length ≤ _
  have h1 : (M1_idx p c).length ≤ (M_idx p c).length + (metal_index c).length := by
    have h := (List.dedup_sublist (M_idx p c ++ metal_index c)).length_le
    simpa [M1_idx] using h
  have h2 := M_idx_length p c
  have h3 : (p.metal_max_num_nbr + 1) * (metal_index c).length
      = p.metal_max_num_nbr * (metal_index c).length + (metal_index c).length := by
    ring
  omega

/-- Witness for the amended C5: the one-metal-atom crystal `cW5`. -/
theorem c5_witness :
    metal_index cW5 ≠ [] ∧
    ∃ s, CIFData.getItem pDef cW5 [0] [] "w5" = .ok s ∧
      s.m1Index.length ≤ (pDef.metal_max_num_nbr + 1) * (metal_index cW5).length :=
  ⟨by decide, c5_primary_index_bound pDef cW5 [0] [] "w5" (by decide)⟩

theorem dedup_replicate_append_singleton (n m : ℕ) (hn : 1 ≤ n) :
    (List.replicate n 0 ++ [m]).dedup = if m = 0 then [0] else [0, m] := by
  induction n with
  | zero => omega
  | succ k ih =>
    cases Nat.eq_zero_or_pos k with
    | inl h0 =>
      subst h0
      by_cases hm : m = 0
      · subst hm
        simp [List.dedup_cons_of_mem]
      · rw [if_neg hm]
        have h1 : (0 : ℕ) ∉ [m] := by simp [Ne.symm hm]
        simp [List.dedup_cons_of_not_mem h1]
    | inr hpos =>
      have hsplit : List.replicate (k + 1) 0 ++ [m] = 0 :: (List.replicate k 0 ++ [m]) := by
        simp [List.replicate_succ]
      have hmem : (0 : ℕ) ∈ List.replicate k 0 ++ [m] :=
        List.mem_append_left _ (List.mem_replicate.mpr ⟨Nat.pos_iff_ne_zero.mp hpos, rfl⟩)
      rw [hsplit, List.dedup_cons_of_mem hmem, ih hpos]

/-- Counterexample to claim C6 as stated: in `cC6` the only metal atom
has index 1 (not 0) and no neighbors within `metal_radius`; the primary
index set then has size 2, not 1 — the pad entries deduplicate to a
genuine atom-index 0 that is distinct from the metal's own index. -/
theorem c6_counterexample :
    metal_index cC6 = [1] ∧ cC6.nbrsWithin pDef.metal_radius 1 = [] ∧
    ∃ s, CIFData.getItem pDef cC6 [0] [] "x6" = .ok s ∧ s.m1Index.length ≠ 1 := by
  refine ⟨by decide, by decide, _, getItem_ok pDef cC6 [0] [] "x6" (by decide), ?_⟩
  show (M1_idx pDef cC6).length ≠ 1
  decide

/-- Claim C6 (amended): for a structure whose metal-atom index list is
exactly `[m]` with zero neighbors within `metal_radius` (and
`metal_max_num_nbr ≥ 1`), the primary index vector is `[0]` (size 1) when
the metal atom is atom 0, and `[0, m]` (size 2) otherwise: the
pad-with-index-0 entries deduplicate into a single atom-index 0, which
merges with the metal's own index only if that index is 0. -/
theorem c6_lone_metal_primary (p : Params) (c : Crystal) (target m2 : List ℚ)
    (cifId : String) (m : ℕ) (hm : metal_index c = [m])
    (hnone : c.nbrsWithin p.metal_radius m = [])
    (hcap : 1 ≤ p.metal_max_num_nbr) :
    ∃ s, CIFData.getItem p c target m2 cifId = .ok s ∧
      s.m1Index = (if m = 0 then [0] else [0, m]) ∧
      s.m1Index.length = (if m = 0 then 1 else 2) := by
  have hM : M_idx p c = List.replicate p.metal_max_num_nbr 0 := by
    rw [M_idx, hm, List.map_cons, List.map_nil, List.flatten_cons, List.flatten_nil,
      List.append_nil, hnone]
    have hs : sortByDist ([] : List (ℚ × ℕ)) = [] := rfl
    rw [hs, metal_nbr_row, if_pos (by simpa using hcap)]
    simp
  have hM1 : M1_idx p c = (if m = 0 then [0] else [0, m]) := by
    rw [M1_idx, hM, hm, dedup_replicate_append_singleton _ _ hcap]
  refine ⟨_, getItem_ok p c target m2 cifId (by simp [hm]), hM1, ?_⟩
  show (M1_idx p c).length = _
  rw [hM1]
  by_cases hm0 : m = 0 <;> simp [hm0]

/-- Witness for the amended C6 at `cC6` (lone metal atom of index 1). -/
theorem c6_witness :
    metal_index cC6 = [1] ∧ cC6.nbrsWithin pDef.metal_radius 1 = [] ∧
      1 ≤ pDef.metal_max_num_nbr ∧
    ∃ s, CIFData.getItem pDef cC6 [0] [] "c6" = .ok s ∧
      s.m1Index = [0, 1] ∧ s.m1Index.length = 2 := by
  refine ⟨by decide, by decide, by decide, ?_⟩
  obtain ⟨s, h1, h2, h3⟩ :=
    c6_lone_metal_primary pDef cC6 [0] [] "c6" 1 (by decide) (by decide) (by decide)
  exact ⟨s, h1, by simpa using h2, by simpa using h3⟩

/-! ## Claims about the distance expander -/

/-- Claim C8: constructing the expander with invalid Gaussian filter
bounds — `dmin ≥ dmax`, or `dmax − dmin ≤ step` — fails at construction
time (the `__init__` asserts), and with valid bounds construction
succeeds. -/
theorem c8_expander_bounds (dmin dmax step : ℚ) (var : Option ℚ) :
    GaussianDistance.init dmin dmax step var = none ↔
      (dmax ≤ dmin ∨ dmax - dmin ≤ step) := by
  unfold GaussianDistance.init
  split
  · rename_i h
    simp only [reduceCtorEq, false_iff]
    push_neg
    exact ⟨h.1, h.2⟩
  · rename_i h
    simp only [true_iff]
    rcases not_and_or.mp h with h1 | h1
    · exact Or.inl (not_lt.mp h1)
    · exact Or.inr (not_lt.mp h1)

/-- Claim C9: for every validly constructed expander and every filter
center index `k`, expanding the center distance `centers[k]` yields
exactly 1 in output channel `k` (the exponent is zero at the center, in
real arithmetic), and for every distance `d` channel `k` equals
`exp(−(d − centers[k])² / var²)`. -/
theorem c9_expand_center (dmin dmax step : ℚ) (g : GaussianDistance)
    (hg : GaussianDistance.init dmin dmax step none = some g)
    (k : ℕ) (hk : k < g.filter.length)
    (center : ℚ) (hcenter : g.filter.getD k 0 = center) :
    (g.expand ((center : ℚ) : ℝ)).getD k 0 = 1 ∧
    ∀ d : ℝ, (g.expand d).getD k 0
        = Real.exp (-((d - ((center : ℚ) : ℝ)) ^ 2) / ((g.var : ℝ)) ^ 2) := by
  have hc2 : g.filter[k] = center := by
    rw [← hcenter, List.getD_eq_getElem _ _ hk]
  have hall : ∀ d : ℝ, (g.expand d).getD k 0
      = Real.exp (-((d - ((center : ℚ) : ℝ)) ^ 2) / ((g.var : ℝ)) ^ 2) := by
    intro d
    have hk2 : k < (g.expand d).length := by
      simpa [GaussianDistance.expand] using hk
    rw [List.getD_eq_getElem _ _ hk2]
    simp only [GaussianDistance.expand, List.getElem_map]
    rw [hc2]
  refine ⟨?_, hall⟩
  rw [hall]
  simp

/-- Witness for C9: the expander `GaussianDistance(0, 1, 0.5)` with
filter centers `[0, 1/2, 1]`, at center index `k = 1`. -/
theorem c9_witness :
    GaussianDistance.init 0 1 (1/2) none = some gC9 ∧ 1 < gC9.filter.length ∧
      gC9.filter.getD 1 0 = 1/2 ∧
    ((gC9.expand (((1/2 : ℚ) : ℚ) : ℝ)).getD 1 0 = 1 ∧
     ∀ d : ℝ, (gC9.expand d).getD 1 0
        = Real.exp (-((d - (((1/2 : ℚ) : ℚ) : ℝ)) ^ 2) / ((gC9.var : ℝ)) ^ 2)) :=
  ⟨by with_unfolding_all decide, by with_unfolding_all decide,
    by with_unfolding_all decide,
    c9_expand_center 0 1 (1/2) gC9 (by with_unfolding_all decide) 1
      (by with_unfolding_all decide) (1/2) (by with_unfolding_all decide)⟩
